import Mathlib

/-!
Verification of the calendar-view component's core logic: date-grid
generation, event indexing, overlap grouping, the calendar state machine,
and the event form validator.

Dates are modelled the way the JavaScript runtime models them: a Date is a
millisecond timestamp (here an unbounded Int), and the calendar fields
(year, month, day) are derived from it by proleptic-Gregorian civil-date
arithmetic. The component is timezone-naive (local wall-clock throughout),
so the model fixes the local offset at zero: the day number of a timestamp
is its floor-division by 86400000 and the time of day its remainder.
Months are numbered 1..12 in this model; the JavaScript source uses 0..11
and always converts at the boundary, so definitions below that embed a
source function taking a 0-based month take the 1-based month instead.

The civil conversions daysFromCivil and civilFromDays implement the
standard Gregorian algorithms (era = 400-year cycle, March-based year) and
are extensionally the conversions the JavaScript engine performs inside
the Date constructor and the getFullYear, getMonth and getDate accessors.
-/

/-- Milliseconds per calendar day. -/
def msPerDay : Int := 86400000

/-- Gregorian leap-year test, as the proleptic rules used by the runtime. -/
def isLeapYear (y : Int) : Bool := y % 4 = 0 && (y % 100 != 0 || y % 400 = 0)

/-- Number of days in month m (1..12) of year y. -/
def daysInMonth (y m : Int) : Int :=
  if m = 2 then (if isLeapYear y then 29 else 28)
  else if m = 4 ∨ m = 6 ∨ m = 9 ∨ m = 11 then 30
  else 31

/-- Year of era recovered from a day of era (0..146096). -/
def yoeFromDoe (doe : Int) : Int := (doe - doe / 1460 + doe / 36524 - doe / 146096) / 365

/-- First day of year (March-based) of shifted month mp (0 = March .. 11 = February). -/
def doyStart (mp : Int) : Int := (153 * mp + 2) / 5

/-- Shifted month recovered from a (March-based) day of year. -/
def mpFromDoy (doy : Int) : Int := (5 * doy + 2) / 153

/-- Day number from era, year of era, shifted month and civil day of month. -/
def dfcAux (era yoe mp d : Int) : Int :=
  era * 146097 + (365 * yoe + yoe / 4 - yoe / 100 + (doyStart mp + d - 1)) - 719468

/-- Day number (days since 1970-01-01) of the civil date (y, m, d), m in 1..12. -/
def daysFromCivil (y m d : Int) : Int :=
  dfcAux ((if m ≤ 2 then y - 1 else y) / 400) ((if m ≤ 2 then y - 1 else y) % 400)
    ((m + 9) % 12) d

/-- Final assembly step of the day-number to civil conversion. -/
def civilOfMp (era yoe mp dd : Int) : Int × Int × Int :=
  let mm := if mp < 10 then mp + 3 else mp - 9
  (if mm ≤ 2 then yoe + era * 400 + 1 else yoe + era * 400, mm, dd)

/-- Civil date from era, year of era and (March-based) day of year. -/
def civilOfDoy (era yoe doy : Int) : Int × Int × Int :=
  civilOfMp era yoe (mpFromDoy doy) (doy - doyStart (mpFromDoy doy) + 1)

/-- Civil date from era and day of era. -/
def civilOfDoe (era doe : Int) : Int × Int × Int :=
  civilOfDoy era (yoeFromDoe doe)
    (doe - (365 * yoeFromDoe doe + yoeFromDoe doe / 4 - yoeFromDoe doe / 100))

/-- Civil date (y, m, d) of a day number, inverse of daysFromCivil. -/
def civilFromDays (z : Int) : Int × Int × Int :=
  civilOfDoe ((z + 719468) / 146097) ((z + 719468) % 146097)

theorem isLeapYear_iff {y : Int} :
    isLeapYear y = true ↔ (y % 4 = 0 ∧ (y % 100 ≠ 0 ∨ y % 400 = 0)) := by
  simp [isLeapYear]

theorem yoe_recovery (yoe doy doe : Int)
    (h1 : 0 ≤ yoe) (h2 : yoe ≤ 399) (h3 : 0 ≤ doy)
    (h4 : doy ≤ 364 ∨ (doy = 365 ∧ (yoe+1) % 4 = 0 ∧ ((yoe+1) % 100 ≠ 0 ∨ (yoe+1) % 400 = 0)))
    (hdoe : doe = 365*yoe + yoe/4 - yoe/100 + doy) :
    yoeFromDoe doe = yoe := by
  unfold yoeFromDoe
  have hA1 : 25*(yoe/100) ≤ yoe/4 := by omega
  have hA2 : yoe/4 ≤ 25*(yoe/100) + 24 := by omega
  rcases h4 with h4 | ⟨hdoy, hl4, hl⟩
  · have e1 : doe/36524 = yoe/100 := by omega
    have e0 : doe/146096 = 0 := by omega
    have hDlow : yoe/4 ≤ doe/1460 := by omega
    have hDhigh : doe/1460 ≤ yoe/4 + doy := by omega
    omega
  · rcases hl with hl | hl
    · have he : yoe % 100 ≠ 99 := by omega
      have e1 : doe/36524 = yoe/100 := by omega
      have e0 : doe/146096 = 0 := by omega
      have hDlow : yoe/4 + 1 ≤ doe/1460 := by omega
      have hDhigh : doe/1460 ≤ yoe/4 + doy := by omega
      omega
    · have hy : yoe = 399 := by omega
      subst hy hdoy
      norm_num at hdoe
      subst hdoe
      decide

/-- Characterization of civilFromDays on a decomposed day number. -/
theorem civilFromDays_decomp (z era yoe mp d doy : Int)
    (hyoe1 : 0 ≤ yoe) (hyoe2 : yoe ≤ 399)
    (hmp1 : 0 ≤ mp) (hmp2 : mp ≤ 11)
    (hd1 : 1 ≤ d)
    (hdoy : doy = doyStart mp + d - 1)
    (hlt : doy ≤ doyStart (mp + 1) - 1)
    (hmax : doy ≤ 364 ∨ (doy = 365 ∧ (yoe+1) % 4 = 0 ∧ ((yoe+1) % 100 ≠ 0 ∨ (yoe+1) % 400 = 0)))
    (hz : z = era * 146097 + (365 * yoe + yoe / 4 - yoe / 100 + doy) - 719468) :
    civilFromDays z =
      (if mp < 10 then yoe + era * 400 else yoe + era * 400 + 1,
       if mp < 10 then mp + 3 else mp - 9, d) := by
  have hds : doyStart mp = (153 * mp + 2) / 5 := rfl
  have hds1 : doyStart (mp + 1) = (153 * (mp + 1) + 2) / 5 := rfl
  have hdoy0 : 0 ≤ doy := by omega
  have hdoebound : 0 ≤ 365 * yoe + yoe / 4 - yoe / 100 + doy ∧
      365 * yoe + yoe / 4 - yoe / 100 + doy ≤ 146096 := by
    constructor
    · omega
    · rcases hmax with h | ⟨h, _, _⟩ <;> omega
  unfold civilFromDays
  have h1 : (z + 719468) / 146097 = era := by omega
  have h2 : (z + 719468) % 146097 = 365 * yoe + yoe / 4 - yoe / 100 + doy := by omega
  rw [h1, h2]
  unfold civilOfDoe
  have h3 : yoeFromDoe (365 * yoe + yoe / 4 - yoe / 100 + doy) = yoe :=
    yoe_recovery yoe doy _ hyoe1 hyoe2 hdoy0 hmax rfl
  rw [h3]
  have h4 : 365 * yoe + yoe / 4 - yoe / 100 + doy - (365 * yoe + yoe / 4 - yoe / 100) = doy := by
    omega
  rw [h4]
  unfold civilOfDoy
  have h5 : mpFromDoy doy = mp := by
    unfold mpFromDoy
    omega
  rw [h5]
  have h6 : doy - doyStart mp + 1 = d := by omega
  rw [h6]
  unfold civilOfMp
  by_cases h10 : mp < 10
  · have hc : ¬ (mp + 3 ≤ 2) := by omega
    simp only [if_pos h10, if_neg hc]
  · have hc : mp - 9 ≤ 2 := by omega
    simp only [if_neg h10, if_pos hc]

theorem roundtrip_core (y yy m d mp : Int)
    (hyy : yy = if m ≤ 2 then y - 1 else y)
    (hmp : mp = (m + 9) % 12) (hmp1 : 0 ≤ mp) (hmp2 : mp ≤ 11)
    (hd1 : 1 ≤ d)
    (hlt : doyStart mp + d - 1 ≤ doyStart (mp + 1) - 1)
    (hmax : doyStart mp + d - 1 ≤ 364 ∨
            (doyStart mp + d - 1 = 365 ∧ (yy % 400 + 1) % 4 = 0 ∧
             ((yy % 400 + 1) % 100 ≠ 0 ∨ (yy % 400 + 1) % 400 = 0)))
    (hm10 : mp < 10 ↔ 3 ≤ m)
    (hmrec : m = if mp < 10 then mp + 3 else mp - 9) :
    civilFromDays (daysFromCivil y m d) = (y, m, d) := by
  unfold daysFromCivil dfcAux
  rw [← hyy, ← hmp]
  have happ := civilFromDays_decomp
      (yy / 400 * 146097 +
        (365 * (yy % 400) + yy % 400 / 4 - yy % 400 / 100 + (doyStart mp + d - 1)) - 719468)
      (yy / 400) (yy % 400) mp d (doyStart mp + d - 1)
      (by omega) (by omega) hmp1 hmp2 hd1 rfl hlt hmax rfl
  rw [happ]
  by_cases h10 : mp < 10
  · have hm3 : 3 ≤ m := hm10.mp h10
    have hyy' : yy = y := by rw [hyy]; simp [show ¬ m ≤ 2 by omega]
    simp only [if_pos h10, Prod.mk.injEq]
    refine ⟨by omega, by omega, trivial⟩
  · have hm3 : m ≤ 2 := by omega
    have hyy' : yy = y - 1 := by rw [hyy]; simp [hm3]
    simp only [if_neg h10, Prod.mk.injEq]
    refine ⟨by omega, by omega, trivial⟩

/-- Round trip: converting a valid civil date to a day number and back is the identity. -/
theorem civilFromDays_daysFromCivil (y m d : Int)
    (hm1 : 1 ≤ m) (hm2 : m ≤ 12) (hd1 : 1 ≤ d) (hd2 : d ≤ daysInMonth y m) :
    civilFromDays (daysFromCivil y m d) = (y, m, d) := by
  interval_cases m
  · norm_num [daysInMonth] at hd2
    exact roundtrip_core y (y - 1) 1 d 10 (by norm_num) (by norm_num) (by norm_num)
      (by norm_num) hd1 (by simp only [doyStart]; omega)
      (by left; simp only [doyStart]; omega) (by norm_num) (by norm_num)
  · have hd29 : d ≤ 29 ∧ (d = 29 → (y % 4 = 0 ∧ (y % 100 ≠ 0 ∨ y % 400 = 0))) := by
      unfold daysInMonth at hd2
      norm_num at hd2
      by_cases hL : isLeapYear y = true
      · rw [if_pos hL] at hd2
        exact ⟨hd2, fun _ => isLeapYear_iff.mp hL⟩
      · rw [if_neg hL] at hd2
        exact ⟨by omega, by omega⟩
    refine roundtrip_core y (y - 1) 2 d 11 (by norm_num) (by norm_num) (by norm_num)
      (by norm_num) hd1 (by simp only [doyStart]; omega) ?_ (by norm_num) (by norm_num)
    by_cases h29 : d = 29
    · have hl := hd29.2 h29
      right
      simp only [doyStart]
      omega
    · left
      simp only [doyStart]
      omega
  · norm_num [daysInMonth] at hd2
    exact roundtrip_core y y 3 d 0 (by norm_num) (by norm_num) (by norm_num)
      (by norm_num) hd1 (by simp only [doyStart]; omega)
      (by left; simp only [doyStart]; omega) (by norm_num) (by norm_num)
  · norm_num [daysInMonth] at hd2
    exact roundtrip_core y y 4 d 1 (by norm_num) (by norm_num) (by norm_num)
      (by norm_num) hd1 (by simp only [doyStart]; omega)
      (by left; simp only [doyStart]; omega) (by norm_num) (by norm_num)
  · norm_num [daysInMonth] at hd2
    exact roundtrip_core y y 5 d 2 (by norm_num) (by norm_num) (by norm_num)
      (by norm_num) hd1 (by simp only [doyStart]; omega)
      (by left; simp only [doyStart]; omega) (by norm_num) (by norm_num)
  · norm_num [daysInMonth] at hd2
    exact roundtrip_core y y 6 d 3 (by norm_num) (by norm_num) (by norm_num)
      (by norm_num) hd1 (by simp only [doyStart]; omega)
      (by left; simp only [doyStart]; omega) (by norm_num) (by norm_num)
  · norm_num [daysInMonth] at hd2
    exact roundtrip_core y y 7 d 4 (by norm_num) (by norm_num) (by norm_num)
      (by norm_num) hd1 (by simp only [doyStart]; omega)
      (by left; simp only [doyStart]; omega) (by norm_num) (by norm_num)
  · norm_num [daysInMonth] at hd2
    exact roundtrip_core y y 8 d 5 (by norm_num) (by norm_num) (by norm_num)
      (by norm_num) hd1 (by simp only [doyStart]; omega)
      (by left; simp only [doyStart]; omega) (by norm_num) (by norm_num)
  · norm_num [daysInMonth] at hd2
    exact roundtrip_core y y 9 d 6 (by norm_num) (by norm_num) (by norm_num)
      (by norm_num) hd1 (by simp only [doyStart]; omega)
      (by left; simp only [doyStart]; omega) (by norm_num) (by norm_num)
  · norm_num [daysInMonth] at hd2
    exact roundtrip_core y y 10 d 7 (by norm_num) (by norm_num) (by norm_num)
      (by norm_num) hd1 (by simp only [doyStart]; omega)
      (by left; simp only [doyStart]; omega) (by norm_num) (by norm_num)
  · norm_num [daysInMonth] at hd2
    exact roundtrip_core y y 11 d 8 (by norm_num) (by norm_num) (by norm_num)
      (by norm_num) hd1 (by simp only [doyStart]; omega)
      (by left; simp only [doyStart]; omega) (by norm_num) (by norm_num)
  · norm_num [daysInMonth] at hd2
    exact roundtrip_core y y 12 d 9 (by norm_num) (by norm_num) (by norm_num)
      (by norm_num) hd1 (by simp only [doyStart]; omega)
      (by left; simp only [doyStart]; omega) (by norm_num) (by norm_num)

/-! Date utilities from the date utils module, at the millisecond / day-number level. -/

/-- Day of week of a day number, 0 = Sunday (day 0, 1970-01-01, was a Thursday). -/
def dayOfWeek (dn : Int) : Int := (dn + 4) % 7

/-- Day number of the Sunday on or before the given day number; models the
date-fns startOfWeek with weekStartsOn 0 at day granularity. -/
def sundayOnOrBefore (dn : Int) : Int := dn - dayOfWeek dn

/-- Year field of a timestamp, as the runtime getFullYear. -/
def getFullYear (t : Int) : Int := (civilFromDays (t / msPerDay)).1

/-- Month field (1..12 here; the runtime getMonth is this minus one). -/
def getMonth (t : Int) : Int := (civilFromDays (t / msPerDay)).2.1

/-- Day-of-month field of a timestamp, as the runtime getDate. -/
def getDate (t : Int) : Int := (civilFromDays (t / msPerDay)).2.2

/-- Day number of the first day of the month containing timestamp t; models
the Date constructed from (year, month, 1) in getCalendarGrid. -/
def firstOfMonthDay (t : Int) : Int := daysFromCivil (getFullYear t) (getMonth t) 1

/-- Cell i of the month grid: addDays(startOfWeek(firstDay), i). -/
def gridCell (t : Int) (i : Nat) : Int := sundayOnOrBefore (firstOfMonthDay t) + i

/-- The 42-cell month grid of getCalendarGrid. Every produced Date lies at
local midnight, so each cell is represented by its day number. -/
def getCalendarGrid (t : Int) : List Int :=
  (List.range 42).map (gridCell t)

theorem daysInMonth_bounds (y m : Int) : 1 ≤ daysInMonth y m ∧ daysInMonth y m ≤ 31 := by
  unfold daysInMonth
  split
  · split <;> omega
  · split <;> omega

theorem daysFromCivil_day_linear (y m k : Int) :
    daysFromCivil y m k = daysFromCivil y m 1 + (k - 1) := by
  unfold daysFromCivil dfcAux
  omega

theorem getCalendarGrid_getElem (t : Int) {i : Nat} (h : i < 42) :
    (getCalendarGrid t)[i]? = some (gridCell t i) := by
  simp [getCalendarGrid, List.getElem?_map, List.getElem?_range, h]

/-- C1: for every reference date the month grid has exactly 42 entries, starts
at the Sunday on or before the first of the month, advances by exactly one
calendar day per entry (so entry 7 is 7 days after entry 0), and contains
every day of the reference month. -/
theorem getCalendarGrid_C1 (t : Int) :
    (getCalendarGrid t).length = 42 ∧
    (∀ x, (getCalendarGrid t)[0]? = some x →
        dayOfWeek x = 0 ∧ x ≤ firstOfMonthDay t ∧ firstOfMonthDay t - x < 7) ∧
    (∀ i : Nat, i + 1 < 42 → ∀ x, (getCalendarGrid t)[i]? = some x →
        (getCalendarGrid t)[i+1]? = some (x + 1)) ∧
    (∀ x, (getCalendarGrid t)[0]? = some x → (getCalendarGrid t)[7]? = some (x + 7)) ∧
    (∀ k, 1 ≤ k → k ≤ daysInMonth (getFullYear t) (getMonth t) →
        daysFromCivil (getFullYear t) (getMonth t) k ∈ getCalendarGrid t) := by
  refine ⟨by simp [getCalendarGrid], ?_, ?_, ?_, ?_⟩
  · intro x hx
    rw [getCalendarGrid_getElem t (by norm_num)] at hx
    simp only [Option.some.injEq] at hx
    simp only [gridCell, sundayOnOrBefore, dayOfWeek] at hx ⊢
    omega
  · intro i hi x hx
    rw [getCalendarGrid_getElem t (by omega)] at hx
    rw [getCalendarGrid_getElem t (by omega)]
    simp only [Option.some.injEq] at hx ⊢
    simp only [gridCell] at hx ⊢
    push_cast
    omega
  · intro x hx
    rw [getCalendarGrid_getElem t (by norm_num)] at hx
    rw [getCalendarGrid_getElem t (by norm_num)]
    simp only [Option.some.injEq] at hx ⊢
    simp only [gridCell] at hx ⊢
    push_cast
    omega
  · intro k hk1 hk2
    have hlin := daysFromCivil_day_linear (getFullYear t) (getMonth t) k
    have hdim := daysInMonth_bounds (getFullYear t) (getMonth t)
    simp only [getCalendarGrid, List.mem_map, List.mem_range]
    refine ⟨(daysFromCivil (getFullYear t) (getMonth t) k - gridCell t 0).toNat, ?_, ?_⟩
    · simp only [gridCell, sundayOnOrBefore, dayOfWeek, firstOfMonthDay]
      omega
    · simp only [gridCell, sundayOnOrBefore, dayOfWeek, firstOfMonthDay]
      omega

theorem getCalendarGrid_C1_witness :
    (1 : Int) ≤ 31 ∧ 31 ≤ daysInMonth (getFullYear 0) (getMonth 0) ∧
    daysFromCivil (getFullYear 0) (getMonth 0) 31 ∈ getCalendarGrid 0 :=
  ⟨by norm_num, by decide, (getCalendarGrid_C1 0).2.2.2.2 31 (by norm_num) (by decide)⟩

/-! Month and week navigation, modelling the date-fns addMonths, subMonths,
addWeeks and subWeeks as used by getNextMonth, getPreviousMonth, getNextWeek
and getPreviousWeek. addMonths moves to the adjacent month and clamps the
day of month to that month's length, preserving the time of day. -/

/-- Year and month one calendar month after (y, m). -/
def nextYM (y m : Int) : Int × Int := if m = 12 then (y + 1, 1) else (y, m + 1)

/-- Year and month one calendar month before (y, m). -/
def prevYM (y m : Int) : Int × Int := if m = 1 then (y - 1, 12) else (y, m - 1)

/-- Day of month clamped into month (y, m), as date-fns addMonths does. -/
def clampDay (y m d : Int) : Int := if d ≥ daysInMonth y m then daysInMonth y m else d

/-- Timestamp of civil date (y, m, d) with r milliseconds past local midnight. -/
def mkDateTime (y m d r : Int) : Int := daysFromCivil y m d * msPerDay + r

/-- getNextMonth: addMonths(date, 1). -/
def getNextMonth (t : Int) : Int :=
  daysFromCivil (nextYM (getFullYear t) (getMonth t)).1 (nextYM (getFullYear t) (getMonth t)).2
      (clampDay (nextYM (getFullYear t) (getMonth t)).1 (nextYM (getFullYear t) (getMonth t)).2
        (getDate t)) * msPerDay
    + t % msPerDay

/-- getPreviousMonth: subMonths(date, 1). -/
def getPreviousMonth (t : Int) : Int :=
  daysFromCivil (prevYM (getFullYear t) (getMonth t)).1 (prevYM (getFullYear t) (getMonth t)).2
      (clampDay (prevYM (getFullYear t) (getMonth t)).1 (prevYM (getFullYear t) (getMonth t)).2
        (getDate t)) * msPerDay
    + t % msPerDay

/-- getNextWeek: addWeeks(date, 1), exactly 7 days later. -/
def getNextWeek (t : Int) : Int := t + 7 * msPerDay

/-- getPreviousWeek: subWeeks(date, 1), exactly 7 days earlier. -/
def getPreviousWeek (t : Int) : Int := t - 7 * msPerDay

theorem fields_mkDateTime (y m d r : Int)
    (hm1 : 1 ≤ m) (hm2 : m ≤ 12) (hd1 : 1 ≤ d) (hd2 : d ≤ daysInMonth y m)
    (hr1 : 0 ≤ r) (hr2 : r < msPerDay) :
    getFullYear (mkDateTime y m d r) = y ∧ getMonth (mkDateTime y m d r) = m ∧
    getDate (mkDateTime y m d r) = d ∧ mkDateTime y m d r % msPerDay = r := by
  have h1 : mkDateTime y m d r / msPerDay = daysFromCivil y m d := by
    unfold mkDateTime msPerDay at *
    omega
  have h2 : mkDateTime y m d r % msPerDay = r := by
    unfold mkDateTime msPerDay at *
    omega
  unfold getFullYear getMonth getDate
  rw [h1, civilFromDays_daysFromCivil y m d hm1 hm2 hd1 hd2]
  exact ⟨rfl, rfl, rfl, h2⟩

theorem getNextMonth_mkDateTime (y m d r : Int)
    (hm1 : 1 ≤ m) (hm2 : m ≤ 12) (hd1 : 1 ≤ d) (hd2 : d ≤ daysInMonth y m)
    (hr1 : 0 ≤ r) (hr2 : r < msPerDay) :
    getNextMonth (mkDateTime y m d r) =
      mkDateTime (nextYM y m).1 (nextYM y m).2 (clampDay (nextYM y m).1 (nextYM y m).2 d) r := by
  obtain ⟨hy, hm, hd, hr⟩ := fields_mkDateTime y m d r hm1 hm2 hd1 hd2 hr1 hr2
  unfold getNextMonth
  rw [hy, hm, hd, hr]
  rfl

theorem getPreviousMonth_mkDateTime (y m d r : Int)
    (hm1 : 1 ≤ m) (hm2 : m ≤ 12) (hd1 : 1 ≤ d) (hd2 : d ≤ daysInMonth y m)
    (hr1 : 0 ≤ r) (hr2 : r < msPerDay) :
    getPreviousMonth (mkDateTime y m d r) =
      mkDateTime (prevYM y m).1 (prevYM y m).2 (clampDay (prevYM y m).1 (prevYM y m).2 d) r := by
  obtain ⟨hy, hm, hd, hr⟩ := fields_mkDateTime y m d r hm1 hm2 hd1 hd2 hr1 hr2
  unfold getPreviousMonth
  rw [hy, hm, hd, hr]
  rfl

theorem nextYM_bounds (y m : Int) (hm1 : 1 ≤ m) (hm2 : m ≤ 12) :
    1 ≤ (nextYM y m).2 ∧ (nextYM y m).2 ≤ 12 := by
  unfold nextYM
  split
  · show (1 : Int) ≤ 1 ∧ (1 : Int) ≤ 12
    norm_num
  · show 1 ≤ m + 1 ∧ m + 1 ≤ 12
    omega

theorem prevYM_bounds (y m : Int) (hm1 : 1 ≤ m) (hm2 : m ≤ 12) :
    1 ≤ (prevYM y m).2 ∧ (prevYM y m).2 ≤ 12 := by
  unfold prevYM
  split
  · show (1 : Int) ≤ 12 ∧ (12 : Int) ≤ 12
    norm_num
  · show 1 ≤ m - 1 ∧ m - 1 ≤ 12
    omega

theorem prevYM_nextYM (y m : Int) (hm1 : 1 ≤ m) (hm2 : m ≤ 12) :
    prevYM (nextYM y m).1 (nextYM y m).2 = (y, m) := by
  unfold nextYM prevYM
  by_cases h : m = 12
  · simp [h]
  · rw [if_neg h]
    simp only
    rw [if_neg (by omega)]
    simp only [Prod.mk.injEq]
    exact ⟨trivial, by omega⟩

theorem nextYM_prevYM (y m : Int) (hm1 : 1 ≤ m) (hm2 : m ≤ 12) :
    nextYM (prevYM y m).1 (prevYM y m).2 = (y, m) := by
  unfold nextYM prevYM
  by_cases h : m = 1
  · simp [h]
  · rw [if_neg h]
    simp only
    rw [if_neg (by omega)]
    simp only [Prod.mk.injEq]
    exact ⟨trivial, by omega⟩

theorem clampDay_bounds (y m d : Int) (hd1 : 1 ≤ d) :
    1 ≤ clampDay y m d ∧ clampDay y m d ≤ daysInMonth y m := by
  have := daysInMonth_bounds y m
  unfold clampDay
  split <;> omega

theorem clampDay_of_le (y m d : Int) (h : d ≤ daysInMonth y m) : clampDay y m d = d := by
  unfold clampDay
  split <;> omega

/-- C9: stepping one month forward or back lands in the adjacent calendar
month with the day clamped to that month's length (never skipping a month),
and the two steps cancel whenever the day of month exists in the adjacent
target month. -/
theorem monthNavigation_roundtrip_C9 (y m d r : Int)
    (hm1 : 1 ≤ m) (hm2 : m ≤ 12) (hd1 : 1 ≤ d) (hd2 : d ≤ daysInMonth y m)
    (hr1 : 0 ≤ r) (hr2 : r < msPerDay) :
    (getNextMonth (mkDateTime y m d r) =
       mkDateTime (nextYM y m).1 (nextYM y m).2 (clampDay (nextYM y m).1 (nextYM y m).2 d) r) ∧
    (getPreviousMonth (mkDateTime y m d r) =
       mkDateTime (prevYM y m).1 (prevYM y m).2 (clampDay (prevYM y m).1 (prevYM y m).2 d) r) ∧
    (d ≤ daysInMonth (nextYM y m).1 (nextYM y m).2 →
       getPreviousMonth (getNextMonth (mkDateTime y m d r)) = mkDateTime y m d r) ∧
    (d ≤ daysInMonth (prevYM y m).1 (prevYM y m).2 →
       getNextMonth (getPreviousMonth (mkDateTime y m d r)) = mkDateTime y m d r) := by
  refine ⟨getNextMonth_mkDateTime y m d r hm1 hm2 hd1 hd2 hr1 hr2,
          getPreviousMonth_mkDateTime y m d r hm1 hm2 hd1 hd2 hr1 hr2, ?_, ?_⟩
  · intro hnext
    obtain ⟨hn1, hn2⟩ := nextYM_bounds y m hm1 hm2
    rw [getNextMonth_mkDateTime y m d r hm1 hm2 hd1 hd2 hr1 hr2,
        clampDay_of_le _ _ _ hnext,
        getPreviousMonth_mkDateTime (nextYM y m).1 (nextYM y m).2 d r hn1 hn2 hd1 hnext hr1 hr2,
        prevYM_nextYM y m hm1 hm2]
    simp only
    rw [clampDay_of_le y m d hd2]
  · intro hprev
    obtain ⟨hp1, hp2⟩ := prevYM_bounds y m hm1 hm2
    rw [getPreviousMonth_mkDateTime y m d r hm1 hm2 hd1 hd2 hr1 hr2,
        clampDay_of_le _ _ _ hprev,
        getNextMonth_mkDateTime (prevYM y m).1 (prevYM y m).2 d r hp1 hp2 hd1 hprev hr1 hr2,
        nextYM_prevYM y m hm1 hm2]
    simp only
    rw [clampDay_of_le y m d hd2]

theorem monthNavigation_roundtrip_C9_witness :
    (15 : Int) ≤ daysInMonth (nextYM 2024 3).1 (nextYM 2024 3).2 ∧
    getPreviousMonth (getNextMonth (mkDateTime 2024 3 15 0)) = mkDateTime 2024 3 15 0 :=
  ⟨by decide,
   (monthNavigation_roundtrip_C9 2024 3 15 0 (by norm_num) (by norm_num) (by norm_num)
      (by decide) (by norm_num) (by decide)).2.2.1 (by decide)⟩

/-! The calendar state machine of the useCalendar hook. -/

inductive CalView where
  | month
  | week
deriving DecidableEq

inductive NavDirection where
  | prev
  | next
deriving DecidableEq

/-- An event record of the component's data model. -/
structure CalendarEvent where
  id : String
  title : String
  description : Option String
  startDate : Int
  endDate : Int
  color : Option String
  category : Option String
deriving DecidableEq

/-- The state held by the useCalendar hook. -/
structure CalendarState where
  currentDate : Int
  view : CalView
  selectedDate : Option Int
  selectedEvent : Option CalendarEvent
  isEventModalOpen : Bool
deriving DecidableEq

/-- Initial state of useCalendar(initialDate, initialView). -/
def initialState (initialDate : Int) (initialView : CalView) : CalendarState :=
  { currentDate := initialDate, view := initialView, selectedDate := none,
    selectedEvent := none, isEventModalOpen := false }

def goToNextMonth (s : CalendarState) : CalendarState :=
  { s with currentDate := getNextMonth s.currentDate }

def goToPreviousMonth (s : CalendarState) : CalendarState :=
  { s with currentDate := getPreviousMonth s.currentDate }

def goToNextWeek (s : CalendarState) : CalendarState :=
  { s with currentDate := getNextWeek s.currentDate }

def goToPreviousWeek (s : CalendarState) : CalendarState :=
  { s with currentDate := getPreviousWeek s.currentDate }

/-- goToToday sets currentDate to the current wall-clock date, passed here
as the parameter today. -/
def goToToday (today : Int) (s : CalendarState) : CalendarState :=
  { s with currentDate := today }

def setView (v : CalView) (s : CalendarState) : CalendarState :=
  { s with view := v }

def selectDate (d : Int) (s : CalendarState) : CalendarState :=
  { s with selectedDate := some d }

/-- openEventModal(event?, date?): event defaults to null, date defaults to
the previously selected date, and the modal opens. -/
def openEventModal (event : Option CalendarEvent) (date : Option Int)
    (s : CalendarState) : CalendarState :=
  { s with selectedEvent := event,
           selectedDate := match date with | some d => some d | none => s.selectedDate,
           isEventModalOpen := true }

def closeEventModal (s : CalendarState) : CalendarState :=
  { s with selectedEvent := none, isEventModalOpen := false }

def navigateToDate (d : Int) (s : CalendarState) : CalendarState :=
  { s with currentDate := d, selectedDate := some d }

/-- The header navigation handler: one month per step in month view, one
week per step in week view. -/
def handleNavigation (dir : NavDirection) (s : CalendarState) : CalendarState :=
  match s.view, dir with
  | CalView.month, NavDirection.prev => goToPreviousMonth s
  | CalView.month, NavDirection.next => goToNextMonth s
  | CalView.week, NavDirection.prev => goToPreviousWeek s
  | CalView.week, NavDirection.next => goToNextWeek s

/-- One user-visible transition of the state machine. -/
inductive CalendarAction where
  | navigate (dir : NavDirection)
  | goToToday (today : Int)
  | setView (v : CalView)
  | selectDate (d : Int)
  | openModal (event : Option CalendarEvent) (date : Option Int)
  | closeModal
  | navigateToDate (d : Int)

def applyAction : CalendarAction → CalendarState → CalendarState
  | CalendarAction.navigate dir, s => handleNavigation dir s
  | CalendarAction.goToToday t, s => goToToday t s
  | CalendarAction.setView v, s => setView v s
  | CalendarAction.selectDate d, s => selectDate d s
  | CalendarAction.openModal e d, s => openEventModal e d s
  | CalendarAction.closeModal, s => closeEventModal s
  | CalendarAction.navigateToDate d, s => navigateToDate d s

/-- States reachable from a given initial state by the transitions. -/
inductive Reachable (init : CalendarState) : CalendarState → Prop where
  | base : Reachable init init
  | step (a : CalendarAction) (s : CalendarState) :
      Reachable init s → Reachable init (applyAction a s)

/-- The modal invariant: a selected event implies the modal dialog is open. -/
def ModalInv (s : CalendarState) : Prop :=
  s.selectedEvent.isSome = true → s.isEventModalOpen = true

/-- C6: navigation moves currentDate by exactly one calendar month in month
view (same day of month when it exists in the target month, clamped
otherwise, never skipping a month) and by exactly 7 days in week view,
leaving selectedDate, selectedEvent, view and isEventModalOpen unchanged;
in particular 2024-03-15 steps to 2024-04-15 in month view and 2024-04-15
steps to 2024-04-22 after switching to week view. -/
theorem navigate_C6 (s : CalendarState) (y m d r : Int)
    (hm1 : 1 ≤ m) (hm2 : m ≤ 12) (hd1 : 1 ≤ d) (hd2 : d ≤ daysInMonth y m)
    (hr1 : 0 ≤ r) (hr2 : r < msPerDay) :
    (∀ dir, (handleNavigation dir s).view = s.view ∧
        (handleNavigation dir s).selectedDate = s.selectedDate ∧
        (handleNavigation dir s).selectedEvent = s.selectedEvent ∧
        (handleNavigation dir s).isEventModalOpen = s.isEventModalOpen) ∧
    (s.view = CalView.week →
        (handleNavigation NavDirection.next s).currentDate = s.currentDate + 7 * msPerDay ∧
        (handleNavigation NavDirection.prev s).currentDate = s.currentDate - 7 * msPerDay) ∧
    (s.view = CalView.month → s.currentDate = mkDateTime y m d r →
        (handleNavigation NavDirection.next s).currentDate =
          mkDateTime (nextYM y m).1 (nextYM y m).2 (clampDay (nextYM y m).1 (nextYM y m).2 d) r ∧
        (handleNavigation NavDirection.prev s).currentDate =
          mkDateTime (prevYM y m).1 (prevYM y m).2 (clampDay (prevYM y m).1 (prevYM y m).2 d) r) ∧
    (d ≤ daysInMonth (nextYM y m).1 (nextYM y m).2 →
        clampDay (nextYM y m).1 (nextYM y m).2 d = d) ∧
    (handleNavigation NavDirection.next
        { currentDate := mkDateTime 2024 3 15 0, view := CalView.month,
          selectedDate := none, selectedEvent := none,
          isEventModalOpen := false }).currentDate = mkDateTime 2024 4 15 0 ∧
    (handleNavigation NavDirection.next (setView CalView.week
        { currentDate := mkDateTime 2024 4 15 0, view := CalView.month,
          selectedDate := none, selectedEvent := none,
          isEventModalOpen := false })).currentDate = mkDateTime 2024 4 22 0 := by
  obtain ⟨cd, v, sd, se, mo⟩ := s
  refine ⟨?_, ?_, ?_, fun h => clampDay_of_le _ _ _ h, by decide, by decide⟩
  · intro dir
    cases v <;> cases dir <;> exact ⟨rfl, rfl, rfl, rfl⟩
  · intro hw
    simp only at hw
    subst hw
    exact ⟨rfl, rfl⟩
  · intro hv hc
    simp only at hv hc
    subst hv
    subst hc
    exact ⟨getNextMonth_mkDateTime y m d r hm1 hm2 hd1 hd2 hr1 hr2,
           getPreviousMonth_mkDateTime y m d r hm1 hm2 hd1 hd2 hr1 hr2⟩

theorem navigate_C6_witness :
    (handleNavigation NavDirection.next
      { currentDate := mkDateTime 2024 1 31 0, view := CalView.month,
        selectedDate := none, selectedEvent := none,
        isEventModalOpen := false }).currentDate = mkDateTime 2024 2 29 0 :=
  (((navigate_C6
      { currentDate := mkDateTime 2024 1 31 0, view := CalView.month,
        selectedDate := none, selectedEvent := none, isEventModalOpen := false }
      2024 1 31 0 (by norm_num) (by norm_num) (by norm_num) (by decide)
      (by norm_num) (by decide)).2.2.1 rfl rfl).1).trans (by decide)

/-- C7: closeEventModal clears the selected event and closes the modal while
preserving selectedDate, currentDate and view; after opening the modal in
create mode anchored at 2024-03-20 and closing it, the selection is gone,
the modal is closed, and selectedDate is still 2024-03-20. -/
theorem closeModal_C7 (s : CalendarState) :
    (closeEventModal s).selectedEvent = none ∧
    (closeEventModal s).isEventModalOpen = false ∧
    (closeEventModal s).selectedDate = s.selectedDate ∧
    (closeEventModal s).currentDate = s.currentDate ∧
    (closeEventModal s).view = s.view ∧
    (closeEventModal (openEventModal none (some (mkDateTime 2024 3 20 0)) s)).selectedEvent
      = none ∧
    (closeEventModal (openEventModal none (some (mkDateTime 2024 3 20 0)) s)).isEventModalOpen
      = false ∧
    (closeEventModal (openEventModal none (some (mkDateTime 2024 3 20 0)) s)).selectedDate
      = some (mkDateTime 2024 3 20 0) := by
  obtain ⟨cd, v, sd, se, mo⟩ := s
  exact ⟨rfl, rfl, rfl, rfl, rfl, rfl, rfl, rfl⟩

/-- C8: the invariant "a selected event implies the modal is open" holds in
the initial state, is preserved by every transition, and therefore holds in
every reachable state; the converse direction is not required, as the modal
also opens in create mode with no selected event. -/
theorem modalInvariant_C8 :
    (∀ d v, ModalInv (initialState d v)) ∧
    (∀ a s, ModalInv s → ModalInv (applyAction a s)) ∧
    (∀ d v s, Reachable (initialState d v) s → ModalInv s) ∧
    (∀ s, (openEventModal none none s).isEventModalOpen = true ∧
          (openEventModal none none s).selectedEvent = none) := by
  have hinit : ∀ d v, ModalInv (initialState d v) := by
    intro d v h
    simp [initialState] at h
  have hpres : ∀ a s, ModalInv s → ModalInv (applyAction a s) := by
    intro a s h
    obtain ⟨cd, v, sd, se, mo⟩ := s
    cases a with
    | navigate dir => cases v <;> cases dir <;> exact h
    | goToToday t => exact h
    | setView v2 => exact h
    | selectDate d => exact h
    | openModal e dt => exact fun _ => rfl
    | closeModal => exact fun hh => Bool.noConfusion hh
    | navigateToDate d => exact h
  refine ⟨hinit, hpres, ?_, fun s => ⟨rfl, rfl⟩⟩
  intro d v s hr
  induction hr with
  | base => exact hinit d v
  | step a s2 _ ih => exact hpres a s2 ih

theorem modalInvariant_C8_witness :
    ModalInv (applyAction CalendarAction.closeModal (initialState 0 CalView.month)) :=
  modalInvariant_C8.2.1 CalendarAction.closeModal (initialState 0 CalView.month)
    (modalInvariant_C8.1 0 CalView.month)

/-! Overlap grouping from the date utils module: eventsOverlap and
groupOverlappingEvents. The source iterates the events in input order,
appends each event to the first existing group containing an event whose
half-open interval intersects it, and otherwise appends a new singleton
group; groupStep is one iteration of that outer loop. -/

def eventsOverlap (e1 e2 : CalendarEvent) : Bool :=
  decide (e1.startDate < e2.endDate) && decide (e2.startDate < e1.endDate)

def addToFirstOverlappingGroup (e : CalendarEvent) :
    List (List CalendarEvent) → Option (List (List CalendarEvent))
  | [] => none
  | g :: gs =>
      if g.any (fun ge => eventsOverlap e ge) then some ((g ++ [e]) :: gs)
      else (addToFirstOverlappingGroup e gs).map (fun gs2 => g :: gs2)

def groupStep (gs : List (List CalendarEvent)) (e : CalendarEvent) :
    List (List CalendarEvent) :=
  match addToFirstOverlappingGroup e gs with
  | some gs2 => gs2
  | none => gs ++ [[e]]

def groupOverlappingEvents (events : List CalendarEvent) : List (List CalendarEvent) :=
  events.foldl groupStep []

theorem eventsOverlap_symm (a b : CalendarEvent) : eventsOverlap a b = eventsOverlap b a := by
  simp [eventsOverlap, Bool.and_comm]

theorem addToFirst_none (e : CalendarEvent) (gs : List (List CalendarEvent))
    (h : ∀ g ∈ gs, g.any (fun ge => eventsOverlap e ge) = false) :
    addToFirstOverlappingGroup e gs = none := by
  induction gs with
  | nil => rfl
  | cons g gs ih =>
      simp only [addToFirstOverlappingGroup, h g (List.mem_cons_self g gs), if_neg]
      rw [ih (fun g2 hg2 => h g2 (List.mem_cons_of_mem g hg2))]
      rfl

theorem groupStep_no_overlap (gs : List (List CalendarEvent)) (e : CalendarEvent)
    (h : ∀ g ∈ gs, g.any (fun ge => eventsOverlap e ge) = false) :
    groupStep gs e = gs ++ [[e]] := by
  unfold groupStep
  rw [addToFirst_none e gs h]

theorem addToFirst_first (gs1 : List (List CalendarEvent)) (g : List CalendarEvent)
    (gs2 : List (List CalendarEvent)) (e : CalendarEvent)
    (h1 : ∀ g2 ∈ gs1, g2.any (fun ge => eventsOverlap e ge) = false)
    (h2 : g.any (fun ge => eventsOverlap e ge) = true) :
    addToFirstOverlappingGroup e (gs1 ++ g :: gs2) = some (gs1 ++ (g ++ [e]) :: gs2) := by
  induction gs1 with
  | nil => simp [addToFirstOverlappingGroup, h2]
  | cons g1 gs1 ih =>
      have hg1 : g1.any (fun ge => eventsOverlap e ge) = false :=
        h1 g1 (List.mem_cons_self g1 gs1)
      simp only [List.cons_append, addToFirstOverlappingGroup]
      rw [if_neg (by simp [hg1])]
      simp only [List.append_eq]
      rw [ih (fun g2 hg2 => h1 g2 (List.mem_cons_of_mem g1 hg2))]
      rfl

theorem groupStep_first (gs1 : List (List CalendarEvent)) (g : List CalendarEvent)
    (gs2 : List (List CalendarEvent)) (e : CalendarEvent)
    (h1 : ∀ g2 ∈ gs1, g2.any (fun ge => eventsOverlap e ge) = false)
    (h2 : g.any (fun ge => eventsOverlap e ge) = true) :
    groupStep (gs1 ++ g :: gs2) e = gs1 ++ (g ++ [e]) :: gs2 := by
  unfold groupStep
  rw [addToFirst_first gs1 g gs2 e h1 h2]

theorem foldl_groupStep_disjoint (events : List CalendarEvent) :
    ∀ gs : List (List CalendarEvent),
    (∀ e ∈ events, ∀ g ∈ gs, g.any (fun ge => eventsOverlap e ge) = false) →
    events.Pairwise (fun a b => eventsOverlap a b = false) →
    events.foldl groupStep gs = gs ++ events.map (fun e => [e]) := by
  induction events with
  | nil => intro gs _ _; simp
  | cons e es ih =>
      intro gs hacc hpw
      obtain ⟨hhead, htail⟩ := List.pairwise_cons.mp hpw
      rw [List.foldl_cons, groupStep_no_overlap gs e (hacc e (List.mem_cons_self e es))]
      rw [ih (gs ++ [[e]]) ?_ htail]
      · simp
      · intro e2 he2 g hg
        rcases List.mem_append.mp hg with hg | hg
        · exact hacc e2 (List.mem_cons_of_mem e he2) g hg
        · simp only [List.mem_singleton] at hg
          subst hg
          simp only [List.any_cons, List.any_nil, Bool.or_false]
          rw [eventsOverlap_symm]
          exact hhead e2 he2

theorem addToFirst_flatten (e : CalendarEvent) :
    ∀ gs gs2, addToFirstOverlappingGroup e gs = some gs2 →
      gs2.flatten.Perm (gs.flatten ++ [e]) := by
  intro gs
  induction gs with
  | nil => intro gs2 h; exact absurd h (by simp [addToFirstOverlappingGroup])
  | cons g gstail ih =>
      intro gs2 h
      unfold addToFirstOverlappingGroup at h
      by_cases hov : g.any (fun ge => eventsOverlap e ge) = true
      · rw [if_pos hov] at h
        obtain rfl := Option.some.injEq _ _ ▸ h
        simp only [List.flatten_cons, List.append_assoc]
        exact ((List.perm_append_singleton e gstail.flatten).symm).append_left g
      · rw [if_neg hov] at h
        cases hrec : addToFirstOverlappingGroup e gstail with
        | none => rw [hrec] at h; simp at h
        | some gs3 =>
            rw [hrec] at h
            simp at h
            subst h
            simp only [List.flatten_cons, List.append_assoc]
            exact (ih gs3 hrec).append_left g

theorem groupStep_flatten (gs : List (List CalendarEvent)) (e : CalendarEvent) :
    (groupStep gs e).flatten.Perm (gs.flatten ++ [e]) := by
  unfold groupStep
  cases hcase : addToFirstOverlappingGroup e gs with
  | some gs2 => exact addToFirst_flatten e gs gs2 hcase
  | none => simp

theorem foldl_groupStep_flatten (events : List CalendarEvent) :
    ∀ gs : List (List CalendarEvent),
      ((events.foldl groupStep gs).flatten).Perm (gs.flatten ++ events) := by
  induction events with
  | nil => intro gs; simp
  | cons e es ih =>
      intro gs
      rw [List.foldl_cons]
      refine (ih (groupStep gs e)).trans ?_
      have h1 := (groupStep_flatten gs e).append_right es
      refine h1.trans ?_
      simp

theorem addToFirst_nonempty (e : CalendarEvent) :
    ∀ gs gs2, (∀ g ∈ gs, g ≠ []) → addToFirstOverlappingGroup e gs = some gs2 →
      ∀ g ∈ gs2, g ≠ [] := by
  intro gs
  induction gs with
  | nil => intro gs2 _ h; exact absurd h (by simp [addToFirstOverlappingGroup])
  | cons g gstail ih =>
      intro gs2 hne h
      unfold addToFirstOverlappingGroup at h
      by_cases hov : g.any (fun ge => eventsOverlap e ge) = true
      · rw [if_pos hov] at h
        obtain rfl := Option.some.injEq _ _ ▸ h
        intro g2 hg2
        rcases List.mem_cons.mp hg2 with hg2 | hg2
        · subst hg2; simp
        · exact hne g2 (List.mem_cons_of_mem g hg2)
      · rw [if_neg hov] at h
        cases hrec : addToFirstOverlappingGroup e gstail with
        | none => rw [hrec] at h; simp at h
        | some gs3 =>
            rw [hrec] at h
            simp at h
            subst h
            intro g2 hg2
            rcases List.mem_cons.mp hg2 with hg2 | hg2
            · subst hg2; exact hne g2 (List.mem_cons_self g2 gstail)
            · exact ih gs3 (fun g3 hg3 => hne g3 (List.mem_cons_of_mem g hg3)) hrec g2 hg2

theorem groupStep_nonempty (gs : List (List CalendarEvent)) (e : CalendarEvent)
    (hne : ∀ g ∈ gs, g ≠ []) : ∀ g ∈ groupStep gs e, g ≠ [] := by
  unfold groupStep
  cases hcase : addToFirstOverlappingGroup e gs with
  | some gs2 => exact addToFirst_nonempty e gs gs2 hne hcase
  | none =>
      intro g hg
      rcases List.mem_append.mp hg with hg | hg
      · exact hne g hg
      · simp only [List.mem_singleton] at hg
        subst hg
        simp

theorem foldl_groupStep_nonempty (events : List CalendarEvent) :
    ∀ gs : List (List CalendarEvent), (∀ g ∈ gs, g ≠ []) →
      ∀ g ∈ events.foldl groupStep gs, g ≠ [] := by
  induction events with
  | nil => intro gs h; simpa using h
  | cons e es ih =>
      intro gs h
      rw [List.foldl_cons]
      exact ih (groupStep gs e) (groupStep_nonempty gs e h)

/-- C2: greedy overlap grouping. -/
theorem groupOverlapping_C2 :
    groupOverlappingEvents [] = [] ∧
    (∀ gs e, (∀ g ∈ gs, g.any (fun ge => eventsOverlap e ge) = false) →
        groupStep gs e = gs ++ [[e]]) ∧
    (∀ gs1 g gs2 e, (∀ g2 ∈ gs1, g2.any (fun ge => eventsOverlap e ge) = false) →
        g.any (fun ge => eventsOverlap e ge) = true →
        groupStep (gs1 ++ g :: gs2) e = gs1 ++ (g ++ [e]) :: gs2) ∧
    (∀ events : List CalendarEvent,
        events.Pairwise (fun a b => eventsOverlap a b = false) →
        groupOverlappingEvents events = events.map (fun e => [e])) := by
  refine ⟨rfl, groupStep_no_overlap, groupStep_first, ?_⟩
  intro events hpw
  unfold groupOverlappingEvents
  rw [foldl_groupStep_disjoint events [] (by simp) hpw]
  simp

def evA : CalendarEvent :=
  { id := "a", title := "A", description := none, startDate := 0, endDate := 10,
    color := none, category := none }

def evC : CalendarEvent :=
  { id := "c", title := "C", description := none, startDate := 20, endDate := 30,
    color := none, category := none }

theorem groupOverlapping_C2_witness :
    List.Pairwise (fun a b => eventsOverlap a b = false) [evA, evC] ∧
    groupOverlappingEvents [evA, evC] = [[evA], [evC]] :=
  ⟨by decide, groupOverlapping_C2.2.2.2 [evA, evC] (by decide)⟩

/-- C10: the groups partition the input. -/
theorem groupOverlapping_partition_C10 (events : List CalendarEvent) :
    ((groupOverlappingEvents events).flatten).Perm events ∧
    (∀ g ∈ groupOverlappingEvents events, g ≠ []) ∧
    ((groupOverlappingEvents events).map List.length).sum = events.length := by
  have hperm : ((groupOverlappingEvents events).flatten).Perm events := by
    unfold groupOverlappingEvents
    simpa using foldl_groupStep_flatten events []
  refine ⟨hperm, ?_, ?_⟩
  · exact foldl_groupStep_nonempty events [] (by simp)
  · calc ((groupOverlappingEvents events).map List.length).sum
        = (groupOverlappingEvents events).flatten.length := by simp
      _ = events.length := hperm.length_eq

theorem groupOverlapping_partition_C10_witness :
    evA ∈ (groupOverlappingEvents [evA, evC]).flatten :=
  ((groupOverlapping_partition_C10 [evA, evC]).1.mem_iff).mpr (by decide)

/-! Event indexing from the event utils module. -/

/-- setHours(h, mi, s, ms) on a timestamp: same local day, given time of day. -/
def setHoursMs (t h mi s ms : Int) : Int :=
  t / msPerDay * msPerDay + (h * 3600000 + mi * 60000 + s * 1000 + ms)

/-- getEventsForWeek: the source builds weekEnd by copying weekStart, adding 6
days (setDate, which at a fixed offset is exactly 6 * msPerDay) and setting
the time to 23:59:59.999, then keeps events with
weekStart less-or-equal startDate less-or-equal weekEnd. -/
def getEventsForWeek (events : List CalendarEvent) (weekStart : Int) : List CalendarEvent :=
  events.filter (fun e => decide (weekStart ≤ e.startDate) &&
    decide (e.startDate ≤ setHoursMs (weekStart + 6 * msPerDay) 23 59 59 999))

/-- Modelled from the spec: the range claimed for eventsInWeek starts at
weekStart 00:00:00, the start of weekStart's day. Written for comparison
against getEventsForWeek, which uses weekStart itself as the lower bound. -/
def getEventsForWeekClaimed (events : List CalendarEvent) (weekStart : Int) : List CalendarEvent :=
  events.filter (fun e => decide (weekStart / msPerDay * msPerDay ≤ e.startDate) &&
    decide (e.startDate ≤ weekStart / msPerDay * msPerDay + 6 * msPerDay + 86399999))

/-- An event at 05:00 of day 0, before a weekStart of 10:00 of day 0. -/
def evEarly : CalendarEvent :=
  { id := "early", title := "E", description := none, startDate := 18000000,
    endDate := 19000000, color := none, category := none }

theorem getEventsForWeek_C5_counterexample :
    getEventsForWeek [evEarly] 36000000 = [] ∧
    getEventsForWeekClaimed [evEarly] 36000000 = [evEarly] ∧
    getEventsForWeek [evEarly] 36000000 ≠ getEventsForWeekClaimed [evEarly] 36000000 := by
  decide

/-- C5 (amended): getEventsForWeek keeps, in input order, exactly the events
whose startDate lies in the closed range from weekStart itself (with its
time of day, not floored to midnight) to weekStart plus 6 days at
23:59:59.999 of that day; when weekStart is at midnight this is exactly
the claimed range starting at weekStart 00:00:00. -/
theorem getEventsForWeek_C5 (events : List CalendarEvent) (weekStart : Int) :
    getEventsForWeek events weekStart =
      events.filter (fun e => decide (weekStart ≤ e.startDate) &&
        decide (e.startDate ≤ weekStart / msPerDay * msPerDay + 6 * msPerDay + 86399999)) ∧
    (weekStart % msPerDay = 0 →
      getEventsForWeek events weekStart = getEventsForWeekClaimed events weekStart) := by
  have hend : setHoursMs (weekStart + 6 * msPerDay) 23 59 59 999 =
      weekStart / msPerDay * msPerDay + 6 * msPerDay + 86399999 := by
    unfold setHoursMs msPerDay
    omega
  constructor
  · unfold getEventsForWeek
    simp only [hend]
  · intro h0
    have h1 : weekStart / msPerDay * msPerDay = weekStart := by
      unfold msPerDay at *
      omega
    unfold getEventsForWeek getEventsForWeekClaimed
    simp only [hend, h1]

theorem getEventsForWeek_C5_witness :
    (0 : Int) % msPerDay = 0 ∧
    getEventsForWeek [evEarly] 0 = getEventsForWeekClaimed [evEarly] 0 :=
  ⟨by decide, (getEventsForWeek_C5 [evEarly] 0).2 (by decide)⟩

/-! Malformed-record behaviour of the day indexer. getEventsForDate filters
by isSameDayCustom(event.startDate, date), and isSameDayCustom reads
getFullYear, getMonth and getDate from its first argument with no guard: a
record whose startDate is absent makes that read throw, which aborts the
whole filter. The model gives such records an Option startDate and tracks
the throw with Except. -/

/-- isSameDayCustom: compares the year, month and day fields of two dates. -/
def isSameDayCustom (a b : Int) : Bool :=
  decide ((civilFromDays (a / msPerDay)).1 = (civilFromDays (b / msPerDay)).1) &&
  decide ((civilFromDays (a / msPerDay)).2.1 = (civilFromDays (b / msPerDay)).2.1) &&
  decide ((civilFromDays (a / msPerDay)).2.2 = (civilFromDays (b / msPerDay)).2.2)

/-- An event record as the runtime sees it: startDate may be absent. -/
structure RawEvent where
  id : String
  startDate : Option Int
deriving DecidableEq

/-- isSameDayCustom applied to a possibly-absent first date: reading a
calendar field of an absent date throws. -/
def isSameDayCustomChecked (d1 : Option Int) (d2 : Int) : Except Unit Bool :=
  match d1 with
  | none => Except.error ()
  | some t => Except.ok (isSameDayCustom t d2)

/-- Array.prototype.filter with a throwing predicate: elements are tested in
order and the first throw aborts the whole call. -/
def filterE {α : Type} (p : α → Except Unit Bool) : List α → Except Unit (List α)
  | [] => Except.ok []
  | x :: xs =>
      match p x with
      | Except.error e => Except.error e
      | Except.ok b =>
          match filterE p xs with
          | Except.error e => Except.error e
          | Except.ok rest => Except.ok (if b then x :: rest else rest)

/-- getEventsForDate over records whose startDate may be absent. -/
def getEventsForDateChecked (events : List RawEvent) (d : Int) : Except Unit (List RawEvent) :=
  filterE (fun e => isSameDayCustomChecked e.startDate d) events

/-- C4 (amended): getEventsForDate returns the day matches only when every
record has its startDate present; a single record with an absent startDate
makes the unguarded field read throw, aborting the whole computation,
rather than being excluded from the result set. -/
theorem getEventsForDate_missing_C4 (events : List RawEvent) (d : Int) :
    getEventsForDateChecked events d =
      if events.all (fun e => e.startDate.isSome)
      then Except.ok (events.filter (fun e =>
            match e.startDate with
            | some t => isSameDayCustom t d
            | none => false))
      else Except.error () := by
  induction events with
  | nil => rfl
  | cons e es ih =>
      unfold getEventsForDateChecked at ih ⊢
      cases hsd : e.startDate with
      | none =>
          simp [filterE, isSameDayCustomChecked, hsd]
      | some t =>
          have hred : isSameDayCustomChecked (some t) d =
              Except.ok (isSameDayCustom t d) := rfl
          simp only [filterE, hred, List.all_cons, hsd, Option.isSome_some,
            Bool.true_and, List.filter_cons]
          rw [ih]
          by_cases hall : es.all (fun e => e.startDate.isSome) = true
          · rw [if_pos hall, if_pos hall]
          · rw [if_neg hall, if_neg hall]

/-- A record whose startDate is present. -/
def rawGood : RawEvent := { id := "g", startDate := some 0 }

/-- A malformed record whose startDate is absent. -/
def rawBad : RawEvent := { id := "b", startDate := none }

theorem getEventsForDate_missing_C4_counterexample :
    getEventsForDateChecked [rawGood, rawBad] 0 = Except.error () ∧
    getEventsForDateChecked [rawGood, rawBad] 0 ≠ Except.ok [rawGood] := by
  constructor
  · rfl
  · intro h
    rw [show getEventsForDateChecked [rawGood, rawBad] 0 = Except.error () from rfl] at h
    exact Except.noConfusion h

/-! The event form validator of the EventModal component. The validateForm
function evaluates every rule and collects one message per offending field
into a field-keyed error record; an empty record means the form is valid.
The blank-title test models the source's check that title.trim() is empty
(the title consists only of whitespace); lengths count characters. The
dates arrive as Option values because the source guards their presence
dynamically before the ordering check. -/

structure EventFormData where
  title : String
  description : String
  startDate : Option Int
  endDate : Option Int
  color : String
  category : String
deriving DecidableEq

structure FormErrors where
  title : Option String
  description : Option String
  startDate : Option String
  endDate : Option String
deriving DecidableEq

def noErrors : FormErrors :=
  { title := none, description := none, startDate := none, endDate := none }

def stringIsBlank (s : String) : Bool := s.data.all Char.isWhitespace

def validateForm (fd : EventFormData) : FormErrors :=
  { title :=
      if stringIsBlank fd.title then some "Title is required"
      else if fd.title.length > 100 then some "Title must be 100 characters or less"
      else none,
    description :=
      if fd.description.length > 500 then some "Description must be 500 characters or less"
      else none,
    startDate := if fd.startDate.isNone then some "Start date is required" else none,
    endDate :=
      match fd.startDate, fd.endDate with
      | _, none => some "End date is required"
      | some s, some e => if s ≥ e then some "End date must be after start date" else none
      | none, some _ => none }

/-- C3: the validator evaluates its rules independently and returns a
field-keyed mapping: a 101-character title yields a title-keyed error, equal
start and end dates yield an endDate-keyed error (several errors can be
present at once), and a fully valid candidate yields the empty mapping. -/
theorem validateForm_C3 (fd : EventFormData) :
    (fd.title.length = 101 → (validateForm fd).title.isSome = true) ∧
    (∀ t, fd.startDate = some t → fd.endDate = some t →
        (validateForm fd).endDate.isSome = true) ∧
    (stringIsBlank fd.title = false → fd.title.length ≤ 100 → fd.description.length ≤ 500 →
        ∀ s e, fd.startDate = some s → fd.endDate = some e → s < e →
        validateForm fd = noErrors) ∧
    (stringIsBlank fd.title = true → ∀ t, fd.startDate = some t → fd.endDate = some t →
        (validateForm fd).title.isSome = true ∧ (validateForm fd).endDate.isSome = true) := by
  refine ⟨?_, ?_, ?_, ?_⟩
  · intro h101
    by_cases ht : stringIsBlank fd.title = true
    · simp [validateForm, ht]
    · simp only [Bool.not_eq_true] at ht
      simp [validateForm, ht, h101]
  · intro t hs he
    simp [validateForm, hs, he]
  · intro ht hlen hdesc s e hs he hlt
    unfold validateForm noErrors
    rw [if_neg (by simp [ht]), if_neg (by omega), if_neg (by omega), hs, he]
    simp only [Option.isNone_some, Bool.false_eq_true, if_false]
    rw [if_neg (by omega)]
  · intro ht t hs he
    constructor
    · simp [validateForm, ht]
    · simp [validateForm, hs, he]

def fd101 : EventFormData :=
  { title := String.mk (List.replicate 101 'a'), description := "",
    startDate := some 0, endDate := some 3600000,
    color := "#3b82f6", category := "Meeting" }

def fdEqDates : EventFormData :=
  { title := "Ok", description := "", startDate := some 0, endDate := some 0,
    color := "#3b82f6", category := "Meeting" }

def fdValid : EventFormData :=
  { title := "Ok", description := "", startDate := some 0, endDate := some 3600000,
    color := "#3b82f6", category := "Meeting" }

theorem validateForm_C3_witness :
    (fd101.title.length = 101 ∧ (validateForm fd101).title.isSome = true) ∧
    ((validateForm fdEqDates).endDate.isSome = true) ∧
    (validateForm fdValid = noErrors) :=
  ⟨⟨by decide, (validateForm_C3 fd101).1 (by decide)⟩,
   (validateForm_C3 fdEqDates).2.1 0 rfl rfl,
   (validateForm_C3 fdValid).2.2.1 (by decide) (by decide) (by decide) 0 3600000 rfl rfl
     (by decide)⟩
